import Mathlib

/-!
Shallow embedding of `convert_shp.py`, a batch shapefile converter that
(1) normalizes or reprojects every input layer to EPSG:32652,
(2) corrects vertical (Z) coordinates from orthometric to ellipsoidal
height by adding the geoid undulation N, (3) renames a fixed set of
attribute fields, and (4) writes each result to a separate output
directory.

External library calls (the pyproj transformers `to_wgs84` and `vshift`,
geopandas' `to_crs` reprojection) are modelled as function parameters;
Python exceptions are modelled as `Option`/error results; coordinates are
rationals.
-/

/-- A shapely coordinate tuple: x, y, and an optional z ordinate
(2D coordinates have `none`). -/
abbrev Coord : Type := ℚ × ℚ × Option ℚ

/-- Geometry variants relevant to the script. `polygon` is the variant the
script leaves unsupported (the `isinstance` dispatch covers Point,
LineString, MultiPoint and MultiLineString only). -/
inductive Geometry : Type where
  | point (c : Coord)
  | lineString (cs : List Coord)
  | multiPoint (cs : List Coord)
  | multiLineString (parts : List (List Coord))
  | polygon (shell : List Coord) (holes : List (List Coord))
  deriving DecidableEq

/-- Does a coordinate carry a z ordinate. -/
def coordHasZ (c : Coord) : Bool := c.2.2.isSome

/-- Shapely `geom.has_z`: the geometry carries a z ordinate somewhere. -/
def Geometry.has_z : Geometry → Bool
  | .point c => coordHasZ c
  | .lineString cs => cs.any coordHasZ
  | .multiPoint cs => cs.any coordHasZ
  | .multiLineString ps => ps.any (fun seg => seg.any coordHasZ)
  | .polygon sh hs => sh.any coordHasZ || hs.any (fun ring => ring.any coordHasZ)

/-- Every coordinate of the geometry carries a z ordinate. Shapely stores
coordinates of a geometry with uniform dimension, so on geometries that
can actually reach `z_fix` this agrees with `has_z` (trivially on empty
ones). -/
def Geometry.allZ : Geometry → Bool
  | .point c => coordHasZ c
  | .lineString cs => cs.all coordHasZ
  | .multiPoint cs => cs.all coordHasZ
  | .multiLineString ps => ps.all (fun seg => seg.all coordHasZ)
  | .polygon sh hs => sh.all coordHasZ && hs.all (fun ring => ring.all coordHasZ)

/-- The variants `z_fix` dispatches on. -/
def Geometry.isSupported : Geometry → Bool
  | .point _ => true
  | .lineString _ => true
  | .multiPoint _ => true
  | .multiLineString _ => true
  | .polygon _ _ => false

/-- Structure-preserving map over every coordinate of a supported geometry;
it keeps the variant, the part count and the point order by construction
(unsupported variants are untouched). -/
def Geometry.mapCoord (f : Coord → Coord) : Geometry → Geometry
  | .point c => .point (f c)
  | .lineString cs => .lineString (cs.map f)
  | .multiPoint cs => .multiPoint (cs.map f)
  | .multiLineString ps => .multiLineString (ps.map (List.map f))
  | .polygon sh hs => .polygon sh hs

/-- Source constant `TARGET_EPSG = 32652`. -/
def TARGET_EPSG : Nat := 32652

/-- Source constant `APPLY_Z_FIX = True`. -/
def APPLY_Z_FIX : Bool := true

/-- Source constant `RENAME_FIELDS`, the static field-rename mapping. -/
def RENAME_FIELDS : List (String × String) :=
  [("id", "ID"), ("linkid", "LinkID"), ("l_linkid", "L_LinkID"),
   ("r_linkid", "R_LinkID"), ("tonodeid", "ToNodeID"),
   ("fromnodeid", "FromNodeID"), ("roadrank", "RoadRank"),
   ("roadno", "RoadNo"), ("laneno", "LaneNo"), ("distance", "Distance"),
   ("maxspeed", "MaxSpeed")]

/-- Source constant `SRC_DIR`, the input folder (its path relative to the
script directory). -/
def SRC_DIR : String := "shp_input"

/-- Source constant `OUT_DIR`, the output folder (its path relative to the
script directory). -/
def OUT_DIR : String := "shp_output"

/-- Geoid undulation N at projected (x, y), as computed inside `_ellip`:
reproject (x, y) to geographic (lon, lat) with `to_wgs84.transform`
(parameter `toW`), then take the third output of
`vshift.transform(lon, lat, 0)` (parameter `vsh`). -/
def undulationAt (toW : ℚ → ℚ → ℚ × ℚ) (vsh : ℚ → ℚ → ℚ → ℚ × ℚ × ℚ)
    (x y : ℚ) : ℚ :=
  let ll := toW x y
  (vsh ll.1 ll.2 0).2.2

/-- Inner helper `_ellip` of `z_fix`: unpacks `x, y, z = c` and returns
(x, y, z + N). A 2D coordinate cannot be unpacked into three components
(Python raises ValueError), modelled as `none`. -/
def ellipOfCoord (toW : ℚ → ℚ → ℚ × ℚ) (vsh : ℚ → ℚ → ℚ → ℚ × ℚ × ℚ) :
    Coord → Option Coord
  | (x, y, some z) => some (x, y, some (z + undulationAt toW vsh x y))
  | (_, _, none) => none

/-- The script's `z_fix`. The globals `APPLY_Z_FIX`, `to_wgs84` and `vshift`
enter as the parameters `apply`, `toW` and `vsh`; an exception escaping
`z_fix` is `none`. -/
def z_fix (apply : Bool) (toW : ℚ → ℚ → ℚ × ℚ)
    (vsh : ℚ → ℚ → ℚ → ℚ × ℚ × ℚ) (geom : Geometry) : Option Geometry :=
  if !(apply && geom.has_z) then some geom
  else
    match geom with
    | .point c => (ellipOfCoord toW vsh c).map Geometry.point
    | .lineString cs =>
        (cs.mapM (ellipOfCoord toW vsh)).map Geometry.lineString
    | .multiPoint cs =>
        (cs.mapM (ellipOfCoord toW vsh)).map Geometry.multiPoint
    | .multiLineString ps =>
        (ps.mapM (fun seg : List Coord => seg.mapM (ellipOfCoord toW vsh))).map
          Geometry.multiLineString
    | g => some g

/-- Coordinate-wise correction as the spec words it: (x, y, z) becomes
(x, y, z + N) with x and y unchanged; a coordinate without z is unchanged. -/
def ellipTotal (toW : ℚ → ℚ → ℚ × ℚ) (vsh : ℚ → ℚ → ℚ → ℚ × ℚ × ℚ)
    (c : Coord) : Coord :=
  (c.1, c.2.1, c.2.2.map (fun z => z + undulationAt toW vsh c.1 c.2.1))

/-- Pandas column rename on a single name: a name that is a key of the
mapping (case-sensitive exact `String` match via `List.lookup`) becomes its
image; any other name is kept as is. -/
def renameKey (mapping : List (String × String)) (k : String) : String :=
  (mapping.lookup k).getD k

/-- Pandas `DataFrame.rename(columns=mapping, errors="ignore")` restricted to one
attribute record: every field keeps its value, its name goes through
`renameKey`, and field order is preserved. -/
def rename {α : Type} (mapping : List (String × String))
    (r : List (String × α)) : List (String × α) :=
  r.map (fun kv => (renameKey mapping kv.1, kv.2))

/-- An attribute record: ordered field-name/value pairs. -/
abbrev Record : Type := List (String × String)

/-- A GeoDataFrame: an optional CRS (EPSG code) plus rows pairing a
geometry with its attribute record. -/
structure Layer : Type where
  crs : Option Nat
  rows : List (Geometry × Record)
  deriving DecidableEq

/-- Task 1 of the `main` loop: an undefined CRS is set to the target
without touching coordinates (`set_crs`); a defined CRS different from the
target triggers `to_crs`, modelled by the reprojection parameter `re`; a
CRS already equal to the target leaves the layer untouched. -/
def normalizeCRS (re : Nat → Nat → Geometry → Geometry) (l : Layer) : Layer :=
  match l.crs with
  | none => { l with crs := some TARGET_EPSG }
  | some c =>
      if c = TARGET_EPSG then l
      else
        { crs := some TARGET_EPSG,
          rows := l.rows.map (fun gr => (re c TARGET_EPSG gr.1, gr.2)) }

/-- Python `str.upper()` on a file stem (character-wise uppercasing), as in
`src_path.stem.upper()`. -/
def upperStr (s : String) : String := ⟨s.data.map Char.toUpper⟩

/-- One input shapefile: base name (`Path.stem`), extension (`Path.suffix`,
normally ".shp") and content. -/
structure InputFile : Type where
  stem : String
  suffix : String
  layer : Layer
  deriving DecidableEq

/-- One written output file: directory, file name and content. -/
structure OutputFile : Type where
  dir : String
  fname : String
  layer : Layer
  deriving DecidableEq

/-- Body of the `main` loop for one file: CRS normalization (Task 1),
`z_fix` on every geometry (Task 2; an exception aborts, giving `none`),
field rename (Task 3), and writing to
`OUT_DIR / (stem.upper() + suffix)` (Task 4). -/
def processFile (apply : Bool) (toW : ℚ → ℚ → ℚ × ℚ)
    (vsh : ℚ → ℚ → ℚ → ℚ × ℚ × ℚ) (re : Nat → Nat → Geometry → Geometry)
    (f : InputFile) : Option OutputFile :=
  let gdf := normalizeCRS re f.layer
  match gdf.rows.mapM
      (fun gr => (z_fix apply toW vsh gr.1).map (fun g => (g, gr.2))) with
  | none => none
  | some rows2 =>
      some { dir := OUT_DIR,
             fname := upperStr f.stem ++ f.suffix,
             layer := { crs := gdf.crs,
                        rows := rows2.map
                          (fun gr => (gr.1, rename RENAME_FIELDS gr.2)) } }

/-- The sequential `for shp in shp_files` loop of `main`: returns the
outputs written so far and, if a file failed, the fatal error that aborted
the batch. -/
def convertLoop (toW : ℚ → ℚ → ℚ × ℚ) (vsh : ℚ → ℚ → ℚ → ℚ × ℚ × ℚ)
    (re : Nat → Nat → Geometry → Geometry) :
    List InputFile → List OutputFile × Option String
  | [] => ([], none)
  | f :: fs =>
      match processFile APPLY_Z_FIX toW vsh re f with
      | none => ([], some "transform failure")
      | some out =>
          let rest := convertLoop toW vsh re fs
          (out :: rest.1, rest.2)

/-- The script's `main` function: `sys.exit` fatally when the input
directory holds no shapefile, otherwise convert each file in discovery
order. (Named `mainRun` because `main` is reserved in Lean.) -/
def mainRun (toW : ℚ → ℚ → ℚ × ℚ) (vsh : ℚ → ℚ → ℚ → ℚ × ℚ × ℚ)
    (re : Nat → Nat → Geometry → Geometry) (inputs : List InputFile) :
    List OutputFile × Option String :=
  if inputs.isEmpty then ([], some "no shp files found")
  else convertLoop toW vsh re inputs

/-- A whole run of the script: the module-level guard `sys.exit`s fatally
when the geoid grid file `GTX_PATH` is absent, before `main` ever runs. -/
def program (gtxExists : Bool) (toW : ℚ → ℚ → ℚ × ℚ)
    (vsh : ℚ → ℚ → ℚ → ℚ × ℚ × ℚ) (re : Nat → Nat → Geometry → Geometry)
    (inputs : List InputFile) : List OutputFile × Option String :=
  if gtxExists then mainRun toW vsh re inputs
  else ([], some "missing geoid file")

/-- Process exit status of a run: `sys.exit(message)` exits with status 1,
a full success exits with status 0. -/
def exitCode (r : List OutputFile × Option String) : Nat :=
  match r.2 with
  | some _ => 1
  | none => 0

/-- Per-file pipeline with the Z step removed — only CRS normalization,
field renaming and writing. Stated from the spec, to be compared with
`processFile` when `APPLY_Z_FIX` is off. -/
def processFileNoZ (re : Nat → Nat → Geometry → Geometry) (f : InputFile) :
    OutputFile :=
  let gdf := normalizeCRS re f.layer
  { dir := OUT_DIR,
    fname := upperStr f.stem ++ f.suffix,
    layer := { crs := gdf.crs,
               rows := gdf.rows.map
                 (fun gr => (gr.1, rename RENAME_FIELDS gr.2)) } }

/-- Concrete reprojector used in witnesses: the identity on (x, y). -/
def toW0 : ℚ → ℚ → ℚ × ℚ := fun x y => (x, y)

/-- Concrete vertical-shift pipeline used in witnesses: adds lon + lat to
the z input, so the undulation at (lon, lat) is lon + lat. -/
def vsh0 : ℚ → ℚ → ℚ → ℚ × ℚ × ℚ := fun a b c => (a, b, c + a + b)

/-- A second concrete reprojector, different from `toW0`. -/
def toW1 : ℚ → ℚ → ℚ × ℚ := fun x y => (y, x)

/-- A second concrete vertical-shift pipeline, different from `vsh0`. -/
def vsh1 : ℚ → ℚ → ℚ → ℚ × ℚ × ℚ := fun a b c => (a, b, c + 7)

/-- Concrete layer-level reprojection used in witnesses: the identity. -/
def re0 : Nat → Nat → Geometry → Geometry := fun _ _ g => g

/-- A concrete 3D line used in witnesses. -/
def g0 : Geometry := .lineString [(0, 0, some 5), (1, 2, some 10)]

/-- A concrete 2D line used in witnesses. -/
def g2d : Geometry := .lineString [(0, 0, none), (3, 4, none)]

/-- A concrete 3D polygon used in witnesses. -/
def poly0 : Geometry :=
  .polygon [(0, 0, some 1), (1, 0, some 2), (0, 1, some 3)] []

/-- A concrete attribute record used in witnesses. -/
def r0 : List (String × String) := [("id", "7"), ("foo", "8")]

/-- A concrete layer already in the target CRS, used in witnesses. -/
def layer0 : Layer := ⟨some TARGET_EPSG, []⟩

/-- A concrete input file used in witnesses. -/
def wf0 : InputFile :=
  ⟨"abc", ".shp",
   ⟨none, [(.lineString [(0, 0, none), (1, 2, none)], [("id", "7")])]⟩⟩

/-- The output that converting `wf0` produces. -/
def wout0 : OutputFile :=
  ⟨OUT_DIR, "ABC.shp",
   ⟨some TARGET_EPSG,
    [(.lineString [(0, 0, none), (1, 2, none)], [("ID", "7")])]⟩⟩

/-- Mapping an `Option`-valued function that succeeds on every element of a
list succeeds on the whole list and returns the pointwise results. -/
theorem mapM_eq_some_map {α β : Type} (f : α → Option β) (g : α → β)
    (l : List α) (h : ∀ a ∈ l, f a = some (g a)) :
    l.mapM f = some (l.map g) := by
  induction l with
  | nil => rfl
  | cons a as ih =>
      rw [List.mapM_cons, h a (by simp), ih (fun b hb => h b (by simp [hb]))]
      rfl

/-- On a coordinate that carries z, `_ellip` succeeds and agrees with the
total coordinate correction. -/
theorem ellipOfCoord_of_hasZ (toW : ℚ → ℚ → ℚ × ℚ)
    (vsh : ℚ → ℚ → ℚ → ℚ × ℚ × ℚ) (c : Coord) (h : coordHasZ c = true) :
    ellipOfCoord toW vsh c = some (ellipTotal toW vsh c) := by
  obtain ⟨x, y, z⟩ := c
  cases z with
  | none => simp [coordHasZ] at h
  | some z => rfl

/-- The helper `_ellip` succeeds on a whole coordinate list once every coordinate
carries z. -/
theorem mapM_ellip_of_all (toW : ℚ → ℚ → ℚ × ℚ)
    (vsh : ℚ → ℚ → ℚ → ℚ × ℚ × ℚ) (cs : List Coord)
    (h : cs.all coordHasZ = true) :
    cs.mapM (ellipOfCoord toW vsh) = some (cs.map (ellipTotal toW vsh)) :=
  mapM_eq_some_map _ _ _ (fun a ha =>
    ellipOfCoord_of_hasZ toW vsh a (List.all_eq_true.mp h a ha))

/-- A coordinate list in which every coordinate has z and none has z is
empty. -/
theorem nil_of_all_not_any (cs : List Coord) (hall : cs.all coordHasZ = true)
    (hany : cs.any coordHasZ = false) : cs = [] := by
  cases cs with
  | nil => rfl
  | cons c cs2 => simp_all [List.all_cons, List.any_cons]

/-- C1: for every supported geometry (Point, LineString, MultiPoint,
MultiLineString) whose coordinates carry z, `z_fix` with the source's
`APPLY_Z_FIX` succeeds and replaces each coordinate (x, y, z) by
(x, y, z + N), where N is the undulation at the geographic point obtained
by reprojecting (x, y); x and y are unchanged, and `mapCoord` preserves the
variant, the part count and the point order by construction. -/
theorem z_fix_supported_spec (toW : ℚ → ℚ → ℚ × ℚ)
    (vsh : ℚ → ℚ → ℚ → ℚ × ℚ × ℚ) (g : Geometry)
    (hsup : g.isSupported = true) (hz : g.allZ = true) :
    z_fix APPLY_Z_FIX toW vsh g =
      some (g.mapCoord (ellipTotal toW vsh)) := by
  cases g with
  | point c =>
      simp only [Geometry.allZ] at hz
      simp [z_fix, APPLY_Z_FIX, Geometry.has_z, hz, Geometry.mapCoord,
        ellipOfCoord_of_hasZ toW vsh c hz]
  | lineString cs =>
      simp only [Geometry.allZ] at hz
      cases hany : cs.any coordHasZ with
      | false =>
          rw [nil_of_all_not_any cs hz hany]
          rfl
      | true =>
          simp [z_fix, APPLY_Z_FIX, Geometry.has_z, hany, Geometry.mapCoord]
          exact mapM_ellip_of_all toW vsh cs hz
  | multiPoint cs =>
      simp only [Geometry.allZ] at hz
      cases hany : cs.any coordHasZ with
      | false =>
          rw [nil_of_all_not_any cs hz hany]
          rfl
      | true =>
          simp [z_fix, APPLY_Z_FIX, Geometry.has_z, hany, Geometry.mapCoord]
          exact mapM_ellip_of_all toW vsh cs hz
  | multiLineString ps =>
      simp only [Geometry.allZ] at hz
      cases hany : ps.any (fun seg => seg.any coordHasZ) with
      | false =>
          have hseg : ∀ seg ∈ ps, List.map (ellipTotal toW vsh) seg = seg := by
            intro seg hs
            have h1 : seg.all coordHasZ = true := by
              have := List.all_eq_true.mp hz seg hs
              simpa using this
            have h2 : seg.any coordHasZ = false := by
              have := List.any_eq_false.mp hany seg hs
              simpa using this
            rw [nil_of_all_not_any seg h1 h2]
            rfl
          simp [z_fix, APPLY_Z_FIX, Geometry.has_z, hany, Geometry.mapCoord,
            List.map_congr_left hseg, List.map_id]
      | true =>
          have hmm : ps.mapM (fun seg : List Coord =>
                seg.mapM (ellipOfCoord toW vsh)) =
              some (ps.map (List.map (ellipTotal toW vsh))) :=
            mapM_eq_some_map _ _ _ (fun seg hs =>
              mapM_ellip_of_all toW vsh seg (by
                have := List.all_eq_true.mp hz seg hs
                simpa using this))
          simp [z_fix, APPLY_Z_FIX, Geometry.has_z, hany, Geometry.mapCoord]
          exact hmm
  | polygon sh hs => simp [Geometry.isSupported] at hsup

/-- Witness for C1: a two-point 3D line through the concrete transformers,
with both the symbolic and the fully evaluated result. -/
theorem z_fix_supported_spec_witness :
    Geometry.isSupported g0 = true ∧ Geometry.allZ g0 = true ∧
      z_fix APPLY_Z_FIX toW0 vsh0 g0 =
        some (Geometry.mapCoord (ellipTotal toW0 vsh0) g0) ∧
      z_fix APPLY_Z_FIX toW0 vsh0 g0 =
        some (.lineString [(0, 0, some 5), (1, 2, some 13)]) :=
  ⟨by rfl, by rfl, z_fix_supported_spec toW0 vsh0 g0 (by rfl) (by rfl),
   by norm_num [z_fix, g0, Geometry.has_z, coordHasZ, ellipOfCoord,
     undulationAt, toW0, vsh0, APPLY_Z_FIX, List.mapM, List.mapM.loop]⟩

/-- C2: a geometry whose variant is outside the supported set (the Polygon
variant, even when it carries z ordinates) is returned unmodified by
`z_fix`, and successfully so (`some`, not an error), for every flag value
and every choice of transformers. -/
theorem z_fix_unsupported_passthrough (apply : Bool) (toW : ℚ → ℚ → ℚ × ℚ)
    (vsh : ℚ → ℚ → ℚ → ℚ × ℚ × ℚ) (g : Geometry)
    (h : g.isSupported = false) : z_fix apply toW vsh g = some g := by
  cases g with
  | point c => simp [Geometry.isSupported] at h
  | lineString cs => simp [Geometry.isSupported] at h
  | multiPoint cs => simp [Geometry.isSupported] at h
  | multiLineString ps => simp [Geometry.isSupported] at h
  | polygon sh hs =>
      unfold z_fix
      split
      · rfl
      · rfl

/-- Witness for C2: a 3D polygon passes through `z_fix` unchanged. -/
theorem z_fix_unsupported_passthrough_witness :
    Geometry.isSupported poly0 = false ∧ Geometry.has_z poly0 = true ∧
      z_fix APPLY_Z_FIX toW0 vsh0 poly0 = some poly0 :=
  ⟨by rfl, by rfl,
   z_fix_unsupported_passthrough APPLY_Z_FIX toW0 vsh0 poly0 (by rfl)⟩

/-- C3: a geometry without any z ordinate is returned unchanged by `z_fix`,
and no reprojection or undulation lookup is performed for it: the result
does not depend on the transformers at all. -/
theorem z_fix_no_z_identity (apply : Bool) (toW toW2 : ℚ → ℚ → ℚ × ℚ)
    (vsh vsh2 : ℚ → ℚ → ℚ → ℚ × ℚ × ℚ) (g : Geometry)
    (h : g.has_z = false) :
    z_fix apply toW vsh g = some g ∧
      z_fix apply toW vsh g = z_fix apply toW2 vsh2 g := by
  have h1 : ∀ (tw : ℚ → ℚ → ℚ × ℚ) (vs : ℚ → ℚ → ℚ → ℚ × ℚ × ℚ),
      z_fix apply tw vs g = some g := by
    intro tw vs
    unfold z_fix
    rw [h]
    simp
  exact ⟨h1 toW vsh, (h1 toW vsh).trans (h1 toW2 vsh2).symm⟩

/-- Witness for C3: a 2D line is untouched, under either transformer pair. -/
theorem z_fix_no_z_identity_witness :
    Geometry.has_z g2d = false ∧
      (z_fix APPLY_Z_FIX toW0 vsh0 g2d = some g2d ∧
        z_fix APPLY_Z_FIX toW0 vsh0 g2d = z_fix APPLY_Z_FIX toW1 vsh1 g2d) :=
  ⟨by rfl, z_fix_no_z_identity APPLY_Z_FIX toW0 toW1 vsh0 vsh1 g2d (by rfl)⟩

/-- C10: with the Z-correction flag off, `z_fix` is the identity on every
geometry (3D supported variants included), so the per-file pipeline reduces
to CRS normalization, field renaming and writing alone. -/
theorem z_fix_flag_off_identity (toW : ℚ → ℚ → ℚ × ℚ)
    (vsh : ℚ → ℚ → ℚ → ℚ × ℚ × ℚ) (re : Nat → Nat → Geometry → Geometry) :
    (∀ g : Geometry, z_fix false toW vsh g = some g) ∧
      (∀ f : InputFile,
        processFile false toW vsh re f = some (processFileNoZ re f)) := by
  have hid : ∀ g : Geometry, z_fix false toW vsh g = some g := by
    intro g
    unfold z_fix
    simp
  refine ⟨hid, fun f => ?_⟩
  unfold processFile processFileNoZ
  dsimp only
  rw [mapM_eq_some_map _ (fun gr => gr) _
    (fun gr _ => by rw [hid gr.1]; rfl)]
  simp [List.map_id']

/-- C4: for a record field (k, v) sitting at position i, `rename` with the
static mapping keeps every field and its value at its position: when k is a
key of the mapping (case-sensitive exact match via `List.lookup` on
`String`), the value reappears under the mapped name; when k is not a key,
the field survives unchanged under its original name. -/
theorem rename_field_pointwise {α : Type} (r : List (String × α)) (i : Nat)
    (k : String) (v : α) (h : r[i]? = some (k, v)) :
    (rename RENAME_FIELDS r).length = r.length ∧
      (∀ k2, RENAME_FIELDS.lookup k = some k2 →
        (rename RENAME_FIELDS r)[i]? = some (k2, v)) ∧
      (RENAME_FIELDS.lookup k = none →
        (rename RENAME_FIELDS r)[i]? = some (k, v)) := by
  refine ⟨by simp [rename], ?_, ?_⟩
  · intro k2 hk
    simp [rename, h, renameKey, hk]
  · intro hk
    simp [rename, h, renameKey, hk]

/-- Witness for C4: the record [("id", "7"), ("foo", "8")] becomes
[("ID", "7"), ("foo", "8")]. -/
theorem rename_field_pointwise_witness :
    r0[0]? = some ("id", "7") ∧ r0[1]? = some ("foo", "8") ∧
      RENAME_FIELDS.lookup "id" = some "ID" ∧
      RENAME_FIELDS.lookup "foo" = none ∧
      (rename RENAME_FIELDS r0).length = r0.length ∧
      (rename RENAME_FIELDS r0)[0]? = some ("ID", "7") ∧
      (rename RENAME_FIELDS r0)[1]? = some ("foo", "8") :=
  ⟨by rfl, by rfl, by rfl, by rfl,
   (rename_field_pointwise r0 0 "id" "7" (by rfl)).1,
   (rename_field_pointwise r0 0 "id" "7" (by rfl)).2.1 "ID" (by rfl),
   (rename_field_pointwise r0 1 "foo" "8" (by rfl)).2.2 (by rfl)⟩

/-- A successful association-list lookup returns one of the list's pairs. -/
theorem lookup_mem_of_eq_some {l : List (String × String)} {k t : String}
    (h : List.lookup k l = some t) : (k, t) ∈ l := by
  induction l with
  | nil => simp at h
  | cons p ps ih =>
      obtain ⟨pk, pv⟩ := p
      cases hkp : k == pk with
      | true =>
          rw [List.lookup_cons, hkp] at h
          simp at h
          subst h
          have hk : k = pk := eq_of_beq hkp
          subst hk
          exact List.mem_cons_self _ _
      | false =>
          rw [List.lookup_cons, hkp] at h
          simp at h
          exact List.mem_cons_of_mem _ (ih h)

/-- No target name of `RENAME_FIELDS` is itself a source key. -/
theorem rename_targets_not_keys :
    ∀ p ∈ RENAME_FIELDS, List.lookup p.2 RENAME_FIELDS = none := by decide

/-- Renaming a field name twice equals renaming it once. -/
theorem renameKey_idem (k : String) :
    renameKey RENAME_FIELDS (renameKey RENAME_FIELDS k) =
      renameKey RENAME_FIELDS k := by
  cases h : List.lookup k RENAME_FIELDS with
  | none => simp [renameKey, h]
  | some t =>
      have ht : List.lookup t RENAME_FIELDS = none :=
        rename_targets_not_keys (k, t) (lookup_mem_of_eq_some h)
      simp [renameKey, h, ht]

/-- C5: applying the static rename twice equals applying it once, because
no target name of the mapping is itself a source key. -/
theorem rename_idempotent {α : Type} (r : List (String × α)) :
    rename RENAME_FIELDS (rename RENAME_FIELDS r) =
      rename RENAME_FIELDS r := by
  unfold rename
  rw [List.map_map]
  exact List.map_congr_left (fun kv _ => by
    simp [Function.comp, renameKey_idem kv.1])

/-- C6: the Load step's CRS handling: an undefined CRS is assigned the
target directly with the rows (hence all coordinates) unchanged; a defined
CRS different from the target reprojects every geometry into the target; a
CRS already equal to the target leaves the whole layer untouched. -/
theorem normalizeCRS_spec (re : Nat → Nat → Geometry → Geometry) (l : Layer) :
    (l.crs = none →
      normalizeCRS re l = { crs := some TARGET_EPSG, rows := l.rows }) ∧
      (∀ c, l.crs = some c → c ≠ TARGET_EPSG →
        normalizeCRS re l =
          { crs := some TARGET_EPSG,
            rows := l.rows.map (fun gr => (re c TARGET_EPSG gr.1, gr.2)) }) ∧
      (l.crs = some TARGET_EPSG → normalizeCRS re l = l) := by
  refine ⟨fun h => ?_, fun c h hne => ?_, fun h => ?_⟩
  · simp [normalizeCRS, h]
  · simp [normalizeCRS, h, hne]
  · simp [normalizeCRS, h]

/-- Witness for C6: the three CRS cases on concrete layers. -/
theorem normalizeCRS_spec_witness :
    layer0.crs = some TARGET_EPSG ∧ normalizeCRS re0 layer0 = layer0 ∧
      normalizeCRS re0 (⟨none, []⟩ : Layer) =
        { crs := some TARGET_EPSG, rows := [] } ∧
      normalizeCRS re0 (⟨some 5186, []⟩ : Layer) =
        { crs := some TARGET_EPSG, rows := [] } :=
  ⟨rfl, (normalizeCRS_spec re0 layer0).2.2 rfl,
   (normalizeCRS_spec re0 ⟨none, []⟩).1 rfl,
   (normalizeCRS_spec re0 ⟨some 5186, []⟩).2.1 5186 rfl (by decide)⟩

/-- C7: with an empty input set, `main` aborts fatally before processing
any file: it reports the empty-input error, writes no output file, and the
process exit status is nonzero. -/
theorem main_empty_input_aborts (toW : ℚ → ℚ → ℚ × ℚ)
    (vsh : ℚ → ℚ → ℚ → ℚ × ℚ × ℚ) (re : Nat → Nat → Geometry → Geometry) :
    mainRun toW vsh re [] = ([], some "no shp files found") ∧
      (mainRun toW vsh re []).1 = [] ∧
      exitCode (mainRun toW vsh re []) ≠ 0 :=
  ⟨rfl, rfl, Nat.one_ne_zero⟩

/-- C8: with the geoid grid absent, the run fails fast at initialization:
fatal missing-resource error, nonzero exit status, no file processed and no
output written; the result does not even depend on the vertical-correction
machinery. -/
theorem program_missing_gtx_aborts (toW toW2 : ℚ → ℚ → ℚ × ℚ)
    (vsh vsh2 : ℚ → ℚ → ℚ → ℚ × ℚ × ℚ)
    (re : Nat → Nat → Geometry → Geometry) (inputs : List InputFile) :
    program false toW vsh re inputs = ([], some "missing geoid file") ∧
      (program false toW vsh re inputs).1 = [] ∧
      exitCode (program false toW vsh re inputs) ≠ 0 ∧
      program false toW vsh re inputs = program false toW2 vsh2 re inputs :=
  ⟨rfl, rfl, Nat.one_ne_zero, rfl⟩

/-- C9: every successfully processed input is written into `OUT_DIR` under
the uppercased base name followed by the original extension; `OUT_DIR`
differs from `SRC_DIR`, so the written path never equals the input path. -/
theorem output_path_spec (apply : Bool) (toW : ℚ → ℚ → ℚ × ℚ)
    (vsh : ℚ → ℚ → ℚ → ℚ × ℚ × ℚ) (re : Nat → Nat → Geometry → Geometry)
    (f : InputFile) (out : OutputFile)
    (h : processFile apply toW vsh re f = some out) :
    out.dir = OUT_DIR ∧ out.fname = upperStr f.stem ++ f.suffix ∧
      OUT_DIR ≠ SRC_DIR ∧
      (out.dir, out.fname) ≠ (SRC_DIR, f.stem ++ f.suffix) := by
  unfold processFile at h
  dsimp only at h
  cases hm : (normalizeCRS re f.layer).rows.mapM
      (fun gr => (z_fix apply toW vsh gr.1).map (fun g => (g, gr.2))) with
  | none =>
      rw [hm] at h
      cases h
  | some rows2 =>
      rw [hm] at h
      injection h with h2
      subst h2
      exact ⟨rfl, rfl, by decide,
        fun hpair =>
          (show OUT_DIR ≠ SRC_DIR by decide) (congrArg Prod.fst hpair)⟩

/-- Witness for C9: converting `wf0` writes `ABC.shp` into `shp_output`. -/
theorem output_path_spec_witness :
    processFile APPLY_Z_FIX toW0 vsh0 re0 wf0 = some wout0 ∧
      (wout0.dir = OUT_DIR ∧ wout0.fname = upperStr wf0.stem ++ wf0.suffix ∧
        OUT_DIR ≠ SRC_DIR ∧
        (wout0.dir, wout0.fname) ≠ (SRC_DIR, wf0.stem ++ wf0.suffix)) :=
  ⟨by rfl, output_path_spec APPLY_Z_FIX toW0 vsh0 re0 wf0 wout0 (by rfl)⟩
